import Mathlib

/-!
# Informer event handlers of the Kubernetes data gatherer cache

A shallow embedding of `pkg/datagatherer/k8s/cache.go`: the three informer
callbacks `onAdd`, `onUpdate`, `onDelete` and the helper
`updateCacheGatheredResource`, over an explicit model of the expiring
key-value store they write to.

Go features and how they are embedded:

* a value of type `interface{}` found inside an unstructured object is a `Value`;
* the `interface{}` argument of a handler is an `Obj`;
* a run-time panic (failed type assertion, nil dereference) is an explicit
  `Outcome.panicked`, and the store is returned as it was when the panic was raised;
* `log.Printf` appends a `LogLine` to the lines returned by the handler;
* the package-level variable `clock` is an explicit argument.
-/

namespace K8s

/-! ## Values and objects -/

/-- Dynamic Go values as they occur inside `unstructured.Unstructured.Object`
(a `map[string]interface{}` decoded from JSON). `null` is the nil interface value. -/
inductive Value where
  | null
  | bool (b : Bool)
  | int (n : Int)
  | str (s : String)
  | slice (xs : List Value)
  | map (m : List (String × Value))

/-- The Go index expression `v, ok := m[key]` on a `map[string]interface{}`;
`none` stands for `ok = false`. -/
def mapIndex (m : List (String × Value)) (key : String) : Option Value :=
  m.lookup key

/-- The `interface{}` argument the informer hands to a callback.

* `unstructured object` is a non-nil `*unstructured.Unstructured` whose field
  `Object` is `object`;
* `nilUnstructured` is a nil `*unstructured.Unstructured`;
* `foreign v` is a value of any other dynamic type (the untyped nil included). -/
inductive Obj where
  | unstructured (object : List (String × Value))
  | nilUnstructured
  | foreign (v : Value)

/-! ## Time -/

/-- Modelled from the spec: `api.Time` (package `github.com/jetstack/preflight/api`,
a struct embedding `time.Time`) is not among the sources. An instant is kept as the
seconds and nanoseconds elapsed since January 1, year 1, 00:00:00 UTC, which is the
zero value of `time.Time`. -/
structure Time where
  sec : Int
  nsec : Nat
  deriving DecidableEq, Repr

/-- The zero value `api.Time{}`. -/
def Time.zero : Time := ⟨0, 0⟩

/-- The method `IsZero` promoted from `time.Time`: the instant is the zero instant. -/
def Time.IsZero (t : Time) : Bool :=
  t.sec == 0 && t.nsec == 0

/-- The interface `timeInterface` with its single method `now`; one handler call
reads the clock at most once, so the clock is given by the value that read returns. -/
structure timeInterface where
  now : Time

/-! ## Cache records and the store -/

/-- Modelled from the spec: `api.GatheredResource` (package
`github.com/jetstack/preflight/api`) is not among the sources. It is the cache record
of the data model: the snapshot of the observed object and its deletion timestamp,
whose zero value means that the resource is believed present. -/
structure GatheredResource where
  Resource : Obj
  DeletedAt : Time

/-- What a cache item can hold: the store keeps `interface{}` values.

* `gathered g` is a non-nil `*api.GatheredResource` pointing to `g`;
* `nilGathered` is a nil `*api.GatheredResource`;
* `foreign v` is a value of any other dynamic type. -/
inductive CacheValue where
  | gathered (g : GatheredResource)
  | nilGathered
  | foreign (v : Value)

/-- A `time.Duration`, in nanoseconds. -/
abbrev Duration := Int

/-- The constant `cache.DefaultExpiration`. -/
def DefaultExpiration : Duration := 0

/-- An item of the store: the stored value and the time-to-live it was written with. -/
structure Item where
  Object : CacheValue
  Expiration : Duration

/-- The store `cache.Cache` of `github.com/pmylund/go-cache`, an external collaborator
known by its interface `Get(key) -> (value, found)` and `Set(key, value, ttl)`.
The items are a finite map in Go; here they are a lookup function, so that two stores
are equal exactly when they hold the same items. Expiry belongs to the store and its
own clock: no time passes inside a handler call, so an item that was set is found. -/
structure Cache where
  defaultExpiration : Duration
  items : String → Option Item

/-- A store without items. -/
def Cache.empty (d : Duration) : Cache :=
  { defaultExpiration := d, items := fun _ => none }

/-- The method `Set(k, x, d)`: replaces the item under `k`; the duration
`DefaultExpiration` stands for the default expiration of the store. -/
def Cache.Set (c : Cache) (k : String) (x : CacheValue) (d : Duration) : Cache :=
  let ttl := if d = DefaultExpiration then c.defaultExpiration else d
  { c with items := fun key => if key = k then some ⟨x, ttl⟩ else c.items key }

/-- The method `Get(k)`: the value stored under `k`; `none` stands for `found = false`. -/
def Cache.Get (c : Cache) (k : String) : Option CacheValue :=
  (c.items k).map Item.Object

/-! ## Outcome of a handler call -/

/-- A call of `log.Printf`: the format string and its arguments. -/
structure LogLine where
  format : String
  args : List String
  deriving DecidableEq, Repr

/-- How a Go call ends: it returns, having printed `log`, or it panics. -/
inductive Outcome where
  | returned (log : List LogLine)
  | panicked
  deriving DecidableEq, Repr

/-- The store after a handler call and the way the call ended. -/
structure Result where
  dgCache : Cache
  outcome : Outcome

/-! ## The handlers -/

/-- The function `updateCacheGatheredResource`: a new record for `resource`. When the
key is in the store the deletion timestamp of the stored record is read, and it is
copied when `deletedAt.IsZero() && !deletedAt.IsZero()` holds. `none` stands for a
panic: the stored value is not a `*api.GatheredResource` or is a nil pointer. -/
def updateCacheGatheredResource (cacheKey : String) (resource : Obj) (dgCache : Cache) :
    Option GatheredResource :=
  let cacheObject : GatheredResource := { Resource := resource, DeletedAt := Time.zero }
  match dgCache.Get cacheKey with
  | some o =>
    match o with
    | .gathered g =>
      let deletedAt := g.DeletedAt
      if deletedAt.IsZero && !deletedAt.IsZero then
        some { cacheObject with DeletedAt := deletedAt }
      else
        some cacheObject
    | _ => none
  | none => some cacheObject

/-- The handler `onAdd`. -/
def onAdd (obj : Obj) (dgCache : Cache) : Result :=
  match obj with
  | .unstructured object =>
    match mapIndex object "metadata" with
    | some metadata =>
      match metadata with
      | .map data =>
        match mapIndex data "uid" with
        | some uid =>
          let cacheObject : GatheredResource := { Resource := obj, DeletedAt := Time.zero }
          match uid with
          | .str key =>
            ⟨dgCache.Set key (.gathered cacheObject) DefaultExpiration, .returned []⟩
          | _ => ⟨dgCache, .panicked⟩
        | none =>
          match mapIndex data "name" with
          | some (.str name) =>
            ⟨dgCache, .returned
              [⟨"could not %q resource %q to the cache, missing uid field", ["add", name]⟩]⟩
          | _ => ⟨dgCache, .panicked⟩
      | _ => ⟨dgCache, .panicked⟩
    | none =>
      ⟨dgCache, .returned [⟨"could not %q resource to the cache, missing metadata", ["add"]⟩]⟩
  | _ => ⟨dgCache, .panicked⟩

/-- The handler `onUpdate`. -/
def onUpdate (old new : Obj) (dgCache : Cache) : Result :=
  match old with
  | .unstructured object =>
    match mapIndex object "metadata" with
    | some metadata =>
      match metadata with
      | .map data =>
        match mapIndex data "uid" with
        | some uid =>
          match uid with
          | .str key =>
            match updateCacheGatheredResource key new dgCache with
            | some cacheObject =>
              ⟨dgCache.Set key (.gathered cacheObject) DefaultExpiration, .returned []⟩
            | none => ⟨dgCache, .panicked⟩
          | _ => ⟨dgCache, .panicked⟩
        | none =>
          match mapIndex data "name" with
          | some (.str name) =>
            ⟨dgCache, .returned
              [⟨"could not %q resource %q to the cache, missing uid field", ["update", name]⟩]⟩
          | _ => ⟨dgCache, .panicked⟩
      | _ => ⟨dgCache, .panicked⟩
    | none =>
      ⟨dgCache, .returned
        [⟨"could not %q resource to the cache, missing metadata", ["update"]⟩]⟩
  | _ => ⟨dgCache, .panicked⟩

/-- The handler `onDelete`; `clock` is the package-level clock. -/
def onDelete (clock : timeInterface) (obj : Obj) (dgCache : Cache) : Result :=
  match obj with
  | .unstructured object =>
    match mapIndex object "metadata" with
    | some metadata =>
      match metadata with
      | .map data =>
        match mapIndex data "uid" with
        | some uid =>
          match uid with
          | .str key =>
            match updateCacheGatheredResource key obj dgCache with
            | some cacheObject =>
              let cacheObject := { cacheObject with DeletedAt := clock.now }
              ⟨dgCache.Set key (.gathered cacheObject) DefaultExpiration, .returned []⟩
            | none => ⟨dgCache, .panicked⟩
          | _ => ⟨dgCache, .panicked⟩
        | none =>
          match mapIndex data "name" with
          | some (.str name) =>
            ⟨dgCache, .returned
              [⟨"could not %q resource %q to the cache, missing uid field", ["delete", name]⟩]⟩
          | _ => ⟨dgCache, .panicked⟩
      | _ => ⟨dgCache, .panicked⟩
    | none =>
      ⟨dgCache, .returned
        [⟨"could not %q resource to the cache, missing metadata", ["delete"]⟩]⟩
  | _ => ⟨dgCache, .panicked⟩

/-! ## Sequences of events -/

/-- One notification of the informer: the callback and its arguments. A deletion
carries the value the clock returns during that call. -/
inductive Event where
  | add (obj : Obj)
  | update (old new : Obj)
  | delete (clock : timeInterface) (obj : Obj)

/-- The callback the informer invokes for an event. -/
def handle (e : Event) (dgCache : Cache) : Result :=
  match e with
  | .add obj => onAdd obj dgCache
  | .update old new => onUpdate old new dgCache
  | .delete clock obj => onDelete clock obj dgCache

/-- The store after the informer has delivered the events one after the other, each to
the store left by the one before. A call that panics leaves the store as it was, so the
stores met when delivery stops at a panic are among those of the shorter sequences. -/
def runEvents (events : List Event) (dgCache : Cache) : Cache :=
  match events with
  | [] => dgCache
  | e :: rest => runEvents rest (handle e dgCache).dgCache

/-- The only write between the stores `before` and `after` is a `Set` keyed by the
string uid of `obj` with the duration `DefaultExpiration`: either `after` is `before`,
or the metadata of `obj` is a mapping with a string uid `U` and `after` is `before`
after `Set(U, record, DefaultExpiration)`, so that the item under `U` carries the default
expiration of the store and the item under every other key is the one of `before`. -/
def WritesUIDWithDefaultTTL (obj : Obj) (before after : Cache) : Prop :=
  after = before ∨
  ∃ (object data : List (String × Value)) (U : String) (g : GatheredResource),
    obj = .unstructured object ∧
    mapIndex object "metadata" = some (.map data) ∧
    mapIndex data "uid" = some (.str U) ∧
    after = before.Set U (.gathered g) DefaultExpiration ∧
    after.items U = some ⟨.gathered g, before.defaultExpiration⟩ ∧
    ∀ key : String, key ≠ U → after.items key = before.items key

/-- Every value the store holds is a record: a non-nil `*api.GatheredResource`. -/
def Cache.WellTyped (c : Cache) : Prop :=
  ∀ (k : String) (v : CacheValue), c.Get k = some v → ∃ g, v = .gathered g

/-! ## Sample data -/

/-- The metadata `{uid: "a", name: "x"}`. -/
def metaA : List (String × Value) := [("uid", .str "a"), ("name", .str "x")]

/-- The object `{metadata: {uid: "a", name: "x"}}`. -/
def objectA : List (String × Value) := [("metadata", .map metaA)]

/-- The metadata `{uid: "a", name: "x2"}`. -/
def metaA2 : List (String × Value) := [("uid", .str "a"), ("name", .str "x2")]

/-- The object `{metadata: {uid: "a", name: "x2"}}`. -/
def objectA2 : List (String × Value) := [("metadata", .map metaA2)]

/-- The object `{metadata: {uid: "b", name: "y"}}`. -/
def objectB : List (String × Value) := [("metadata", .map [("uid", .str "b"), ("name", .str "y")])]

/-- The object `{kind: "Pod"}`, which has no metadata. -/
def objectNoMetadata : List (String × Value) := [("kind", .str "Pod")]

/-- The object `{metadata: {name: "x"}}`, whose metadata has a name and no uid. -/
def objectNoUID : List (String × Value) := [("metadata", .map [("name", .str "x")])]

/-- The object `{metadata: {}}`, whose metadata has neither uid nor name. -/
def objectNoUIDNoName : List (String × Value) := [("metadata", .map [])]

/-- The object `{metadata: {name: 7}}`, whose metadata has no uid and a name that is
not a string. -/
def objectNoUIDNumericName : List (String × Value) := [("metadata", .map [("name", .int 7)])]

/-- A non-zero instant, one second after the zero instant. -/
def T0 : Time := ⟨1, 0⟩

/-- A non-zero instant later than `T0`. -/
def T1 : Time := ⟨2, 0⟩

/-- A store holding under `"a"` a record of `objectA` that was deleted at `T0`. -/
def tombstoneStore : Cache :=
  (Cache.empty 300).Set "a" (.gathered ⟨.unstructured objectA, T0⟩) DefaultExpiration

/-- The spec scenario: an add, a delete at `T0` and an update of the resource `"a"`. -/
def scenarioEvents : List Event :=
  [.add (.unstructured objectA), .delete ⟨T0⟩ (.unstructured objectA),
    .update (.unstructured objectA) (.unstructured objectA2)]

/-! ## The store -/

theorem Cache.Get_Set_same (c : Cache) (k : String) (x : CacheValue) (d : Duration) :
    (c.Set k x d).Get k = some x := by
  simp [Cache.Set, Cache.Get]

theorem Cache.items_Set_of_ne (c : Cache) (k key : String) (x : CacheValue) (d : Duration)
    (h : key ≠ k) : (c.Set k x d).items key = c.items key := by
  simp [Cache.Set, h]

theorem Cache.Get_Set_of_ne (c : Cache) (k key : String) (x : CacheValue) (d : Duration)
    (h : key ≠ k) : (c.Set k x d).Get key = c.Get key := by
  simp [Cache.Get, Cache.items_Set_of_ne c k key x d h]

theorem Cache.Set_Set_same (c : Cache) (k : String) (x : CacheValue) (d : Duration) :
    (c.Set k x d).Set k x d = c.Set k x d := by
  simp only [Cache.Set]
  congr 1
  funext key
  by_cases h : key = k <;> simp [h]

/-! ## The handlers on a resource with a string uid -/

/-- The merge never copies a deletion timestamp: whenever it returns a record, that
record is the fresh one. -/
theorem updateCacheGatheredResource_eq_fresh (cacheKey : String) (resource : Obj)
    (dgCache : Cache) (r : GatheredResource)
    (h : updateCacheGatheredResource cacheKey resource dgCache = some r) :
    r = ⟨resource, Time.zero⟩ := by
  unfold updateCacheGatheredResource at h
  split at h
  · split at h
    · simp at h
      exact h.symm
    · simp at h
  · simp at h
    exact h.symm

theorem updateCacheGatheredResource_of_record (cacheKey : String) (resource : Obj)
    (dgCache : Cache)
    (h : dgCache.Get cacheKey = none ∨ ∃ g, dgCache.Get cacheKey = some (.gathered g)) :
    updateCacheGatheredResource cacheKey resource dgCache = some ⟨resource, Time.zero⟩ := by
  unfold updateCacheGatheredResource
  rcases h with h | ⟨g, h⟩
  · simp [h]
  · simp [h]

theorem onAdd_of_uid (c : Cache) (object data : List (String × Value)) (U : String)
    (hm : mapIndex object "metadata" = some (.map data))
    (hu : mapIndex data "uid" = some (.str U)) :
    onAdd (.unstructured object) c =
      ⟨c.Set U (.gathered ⟨.unstructured object, Time.zero⟩) DefaultExpiration,
        .returned []⟩ := by
  simp [onAdd, hm, hu]

theorem onUpdate_of_uid (c : Cache) (object data : List (String × Value)) (U : String)
    (new : Obj)
    (hm : mapIndex object "metadata" = some (.map data))
    (hu : mapIndex data "uid" = some (.str U))
    (hrec : c.Get U = none ∨ ∃ g, c.Get U = some (.gathered g)) :
    onUpdate (.unstructured object) new c =
      ⟨c.Set U (.gathered ⟨new, Time.zero⟩) DefaultExpiration, .returned []⟩ := by
  simp [onUpdate, hm, hu, updateCacheGatheredResource_of_record U new c hrec]

theorem onDelete_of_uid (clock : timeInterface) (c : Cache)
    (object data : List (String × Value)) (U : String)
    (hm : mapIndex object "metadata" = some (.map data))
    (hu : mapIndex data "uid" = some (.str U))
    (hrec : c.Get U = none ∨ ∃ g, c.Get U = some (.gathered g)) :
    onDelete clock (.unstructured object) c =
      ⟨c.Set U (.gathered ⟨.unstructured object, clock.now⟩) DefaultExpiration,
        .returned []⟩ := by
  simp [onDelete, hm, hu,
    updateCacheGatheredResource_of_record U (.unstructured object) c hrec]

/-! ## Claims about single events -/

/-- C1 (preservation law), evaluated on the code: the store holds under `"a"` a record
deleted at the non-zero instant `T0`; after `onUpdate` with an old object of uid `"a"`
the record found under `"a"` has the zero deletion timestamp, which differs from `T0`:
the update has dropped the deletion timestamp instead of preserving it. -/
theorem onUpdate_drops_deletion_timestamp :
    tombstoneStore.Get "a" = some (.gathered ⟨.unstructured objectA, T0⟩) ∧
    T0.IsZero = false ∧
    mapIndex objectA "metadata" = some (.map metaA) ∧
    mapIndex metaA "uid" = some (.str "a") ∧
    (onUpdate (.unstructured objectA) (.unstructured objectA2) tombstoneStore).dgCache.Get "a"
      = some (.gathered ⟨.unstructured objectA2, Time.zero⟩) ∧
    (onUpdate (.unstructured objectA) (.unstructured objectA2) tombstoneStore).outcome
      = .returned [] ∧
    Time.zero ≠ T0 := by
  refine ⟨rfl, rfl, rfl, rfl, rfl, rfl, ?_⟩
  decide

/-- C2: for every store, every resource `R` whose metadata is a mapping with string uid
`U`, and every value of the clock: when the store holds under `U` nothing or a record
(with any deletion timestamp), `onDelete R` returns and afterwards the lookup of `U`
finds the record with resource `R` and the deletion timestamp `clock.now`. -/
theorem onDelete_stamps_now (clock : timeInterface) (c : Cache)
    (object data : List (String × Value)) (U : String)
    (hm : mapIndex object "metadata" = some (.map data))
    (hu : mapIndex data "uid" = some (.str U))
    (hrec : c.Get U = none ∨ ∃ g, c.Get U = some (.gathered g)) :
    (onDelete clock (.unstructured object) c).dgCache.Get U
      = some (.gathered ⟨.unstructured object, clock.now⟩) ∧
    (onDelete clock (.unstructured object) c).outcome = .returned [] := by
  rw [onDelete_of_uid clock c object data U hm hu hrec]
  exact ⟨Cache.Get_Set_same _ _ _ _, rfl⟩

/-- Witness of C2: a delete at `T1` of a resource that the store holds as deleted at the
older instant `T0`. -/
theorem onDelete_stamps_now_witness :
    (onDelete ⟨T1⟩ (.unstructured objectA) tombstoneStore).dgCache.Get "a"
      = some (.gathered ⟨.unstructured objectA, T1⟩) ∧
    (onDelete ⟨T1⟩ (.unstructured objectA) tombstoneStore).outcome = .returned [] :=
  onDelete_stamps_now ⟨T1⟩ tombstoneStore objectA metaA "a" rfl rfl
    (Or.inr ⟨⟨.unstructured objectA, T0⟩, rfl⟩)

/-- C3: for every store, whatever it holds under `U`, and every resource `R` whose
metadata is a mapping with string uid `U`: `onAdd R` returns and afterwards the lookup
of `U` finds the record with resource `R` and the zero deletion timestamp. -/
theorem onAdd_resets_deletion (c : Cache) (object data : List (String × Value))
    (U : String)
    (hm : mapIndex object "metadata" = some (.map data))
    (hu : mapIndex data "uid" = some (.str U)) :
    (onAdd (.unstructured object) c).dgCache.Get U
      = some (.gathered ⟨.unstructured object, Time.zero⟩) ∧
    (onAdd (.unstructured object) c).outcome = .returned [] ∧
    Time.zero.IsZero = true := by
  rw [onAdd_of_uid c object data U hm hu]
  exact ⟨Cache.Get_Set_same _ _ _ _, rfl, rfl⟩

/-- Witness of C3: an add on a store that holds the resource as deleted at `T0`. -/
theorem onAdd_resets_deletion_witness :
    (onAdd (.unstructured objectA2) tombstoneStore).dgCache.Get "a"
      = some (.gathered ⟨.unstructured objectA2, Time.zero⟩) ∧
    (onAdd (.unstructured objectA2) tombstoneStore).outcome = .returned [] ∧
    Time.zero.IsZero = true :=
  onAdd_resets_deletion tombstoneStore objectA2 metaA2 "a" rfl rfl

/-- C4 (marked deleted stays marked deleted), evaluated on the code at the scenario of
the specification with the clock fixed at the non-zero instant `T0`: after `onAdd` the
record under `"a"` has the zero deletion timestamp, after `onDelete` it has `T0`, and
after the following `onUpdate` it has the zero deletion timestamp again and not `T0`. -/
theorem scenario_update_clears_deletion :
    T0.IsZero = false ∧
    (onAdd (.unstructured objectA) (Cache.empty 300)).dgCache.Get "a"
      = some (.gathered ⟨.unstructured objectA, Time.zero⟩) ∧
    (onDelete ⟨T0⟩ (.unstructured objectA)
        (onAdd (.unstructured objectA) (Cache.empty 300)).dgCache).dgCache.Get "a"
      = some (.gathered ⟨.unstructured objectA, T0⟩) ∧
    (onUpdate (.unstructured objectA) (.unstructured objectA2)
        (onDelete ⟨T0⟩ (.unstructured objectA)
          (onAdd (.unstructured objectA) (Cache.empty 300)).dgCache).dgCache).dgCache.Get "a"
      = some (.gathered ⟨.unstructured objectA2, Time.zero⟩) ∧
    (onUpdate (.unstructured objectA) (.unstructured objectA2)
        (onDelete ⟨T0⟩ (.unstructured objectA)
          (onAdd (.unstructured objectA) (Cache.empty 300)).dgCache).dgCache).outcome
      = .returned [] ∧
    Time.zero ≠ T0 := by
  refine ⟨rfl, rfl, rfl, rfl, rfl, ?_⟩
  decide

/-- C5: for every store with nothing under `U` and every pair `(old, new)` where the
metadata of `old` is a mapping with string uid `U`: `onUpdate old new` returns and
afterwards the lookup of `U` finds the record with resource `new` and the zero deletion
timestamp. -/
theorem onUpdate_absent_adds (c : Cache) (object data : List (String × Value))
    (U : String) (new : Obj)
    (hm : mapIndex object "metadata" = some (.map data))
    (hu : mapIndex data "uid" = some (.str U))
    (habsent : c.Get U = none) :
    (onUpdate (.unstructured object) new c).dgCache.Get U
      = some (.gathered ⟨new, Time.zero⟩) ∧
    (onUpdate (.unstructured object) new c).outcome = .returned [] ∧
    Time.zero.IsZero = true := by
  rw [onUpdate_of_uid c object data U new hm hu (Or.inl habsent)]
  exact ⟨Cache.Get_Set_same _ _ _ _, rfl, rfl⟩

/-- Witness of C5: an update for uid `"b"` on a store that holds only `"a"`. -/
theorem onUpdate_absent_adds_witness :
    (onUpdate (.unstructured objectB) (.unstructured objectB) tombstoneStore).dgCache.Get "b"
      = some (.gathered ⟨.unstructured objectB, Time.zero⟩) ∧
    (onUpdate (.unstructured objectB) (.unstructured objectB) tombstoneStore).outcome
      = .returned [] ∧
    Time.zero.IsZero = true :=
  onUpdate_absent_adds tombstoneStore objectB [("uid", .str "b"), ("name", .str "y")] "b"
    (.unstructured objectB) rfl rfl rfl

/-! ## Malformed resources -/

/-- C6: for every store and every resource whose top-level mapping has no `metadata`
entry, `onAdd`, `onDelete` and `onUpdate` (with that resource as `old` and any `new`)
each return, having reported the missing metadata, and leave the store as it was. -/
theorem missing_metadata_no_mutation (clock : timeInterface) (c : Cache)
    (object : List (String × Value)) (new : Obj)
    (hm : mapIndex object "metadata" = none) :
    ((onAdd (.unstructured object) c).dgCache = c ∧
      (onAdd (.unstructured object) c).outcome = .returned
        [⟨"could not %q resource to the cache, missing metadata", ["add"]⟩]) ∧
    ((onDelete clock (.unstructured object) c).dgCache = c ∧
      (onDelete clock (.unstructured object) c).outcome = .returned
        [⟨"could not %q resource to the cache, missing metadata", ["delete"]⟩]) ∧
    ((onUpdate (.unstructured object) new c).dgCache = c ∧
      (onUpdate (.unstructured object) new c).outcome = .returned
        [⟨"could not %q resource to the cache, missing metadata", ["update"]⟩]) := by
  simp [onAdd, onDelete, onUpdate, hm]

/-- Witness of C6: the object `{kind: "Pod"}` with a well-formed `new`. -/
theorem missing_metadata_no_mutation_witness :
    ((onAdd (.unstructured objectNoMetadata) tombstoneStore).dgCache = tombstoneStore ∧
      (onAdd (.unstructured objectNoMetadata) tombstoneStore).outcome = .returned
        [⟨"could not %q resource to the cache, missing metadata", ["add"]⟩]) ∧
    ((onDelete ⟨T1⟩ (.unstructured objectNoMetadata) tombstoneStore).dgCache = tombstoneStore ∧
      (onDelete ⟨T1⟩ (.unstructured objectNoMetadata) tombstoneStore).outcome = .returned
        [⟨"could not %q resource to the cache, missing metadata", ["delete"]⟩]) ∧
    ((onUpdate (.unstructured objectNoMetadata) (.unstructured objectA2)
        tombstoneStore).dgCache = tombstoneStore ∧
      (onUpdate (.unstructured objectNoMetadata) (.unstructured objectA2)
        tombstoneStore).outcome = .returned
        [⟨"could not %q resource to the cache, missing metadata", ["update"]⟩]) :=
  missing_metadata_no_mutation ⟨T1⟩ tombstoneStore objectNoMetadata (.unstructured objectA2) rfl

/-- C7: for every store and every resource whose metadata is a mapping without a `uid`
entry, `onAdd`, `onUpdate` (with that resource as `old`) and `onDelete` each leave the
store as it was, whether the call returns or panics. -/
theorem missing_uid_no_mutation (clock : timeInterface) (c : Cache)
    (object data : List (String × Value)) (new : Obj)
    (hm : mapIndex object "metadata" = some (.map data))
    (hu : mapIndex data "uid" = none) :
    (onAdd (.unstructured object) c).dgCache = c ∧
    (onUpdate (.unstructured object) new c).dgCache = c ∧
    (onDelete clock (.unstructured object) c).dgCache = c := by
  simp only [onAdd, onUpdate, onDelete, hm, hu]
  refine ⟨?_, ?_, ?_⟩ <;> split <;> rfl

/-- Witness of C7: the object `{metadata: {name: "x"}}`. -/
theorem missing_uid_no_mutation_witness :
    (onAdd (.unstructured objectNoUID) tombstoneStore).dgCache = tombstoneStore ∧
    (onUpdate (.unstructured objectNoUID) (.unstructured objectA2) tombstoneStore).dgCache
      = tombstoneStore ∧
    (onDelete ⟨T1⟩ (.unstructured objectNoUID) tombstoneStore).dgCache = tombstoneStore :=
  missing_uid_no_mutation ⟨T1⟩ tombstoneStore objectNoUID [("name", .str "x")]
    (.unstructured objectA2) rfl rfl

/-- C8 (a missing uid is reported without a panic, whatever the name), evaluated on the
code: on the object `{metadata: {}}`, which has neither uid nor name, and on the object
`{metadata: {name: 7}}`, whose name is not a string, each of `onAdd`, `onUpdate` and
`onDelete` panics instead of returning; on `{metadata: {name: "x"}}` `onAdd` returns
with the report. -/
theorem missing_uid_and_name_panics :
    mapIndex objectNoUIDNoName "metadata" = some (.map []) ∧
    mapIndex [] "uid" = none ∧
    mapIndex [] "name" = none ∧
    (onAdd (.unstructured objectNoUIDNoName) (Cache.empty 300)).outcome = .panicked ∧
    (onUpdate (.unstructured objectNoUIDNoName) (.unstructured objectA)
      (Cache.empty 300)).outcome = .panicked ∧
    (onDelete ⟨T0⟩ (.unstructured objectNoUIDNoName) (Cache.empty 300)).outcome = .panicked ∧
    (onAdd (.unstructured objectNoUIDNumericName) (Cache.empty 300)).outcome = .panicked ∧
    (onUpdate (.unstructured objectNoUIDNumericName) (.unstructured objectA)
      (Cache.empty 300)).outcome = .panicked ∧
    (onDelete ⟨T0⟩ (.unstructured objectNoUIDNumericName) (Cache.empty 300)).outcome
      = .panicked ∧
    (onAdd (.unstructured objectNoUID) (Cache.empty 300)).outcome = .returned
      [⟨"could not %q resource %q to the cache, missing uid field", ["add", "x"]⟩] :=
  ⟨rfl, rfl, rfl, rfl, rfl, rfl, rfl, rfl, rfl, rfl⟩

/-! ## Algebraic properties -/

/-- A second `onAdd` of the same resource on the store left by the first one gives the
result of the first one. -/
theorem onAdd_onAdd (c : Cache) (R : Obj) :
    onAdd R (onAdd R c).dgCache = onAdd R c := by
  cases R with
  | unstructured object =>
    cases hm : mapIndex object "metadata" with
    | none => simp [onAdd, hm]
    | some metadata =>
      cases metadata with
      | map data =>
        cases hu : mapIndex data "uid" with
        | none =>
          cases hn : mapIndex data "name" with
          | none => simp [onAdd, hm, hu, hn]
          | some name => cases name <;> simp [onAdd, hm, hu, hn]
        | some uid => cases uid <;> simp [onAdd, hm, hu, Cache.Set_Set_same]
      | _ => simp [onAdd, hm]
  | _ => simp [onAdd]

/-- C9: `onAdd` is idempotent. For every store and every resource `R`, a second
`onAdd R` leaves the store left by the first one as it is and ends the same way; and
when the metadata of `R` is a mapping with string uid `U`, the record under `U` is the
fresh record with resource `R` and the zero deletion timestamp after one call and after
two. -/
theorem onAdd_idempotent (c : Cache) (R : Obj) :
    (onAdd R (onAdd R c).dgCache).dgCache = (onAdd R c).dgCache ∧
    (onAdd R (onAdd R c).dgCache).outcome = (onAdd R c).outcome ∧
    ∀ (object data : List (String × Value)) (U : String),
      R = .unstructured object →
      mapIndex object "metadata" = some (.map data) →
      mapIndex data "uid" = some (.str U) →
      (onAdd R c).dgCache.Get U = some (.gathered ⟨R, Time.zero⟩) ∧
      (onAdd R (onAdd R c).dgCache).dgCache.Get U = some (.gathered ⟨R, Time.zero⟩) := by
  refine ⟨?_, ?_, ?_⟩
  · rw [onAdd_onAdd]
  · rw [onAdd_onAdd]
  · intro object data U hR hm hu
    subst hR
    rw [onAdd_of_uid c object data U hm hu]
    simp only []
    rw [onAdd_of_uid _ object data U hm hu]
    exact ⟨Cache.Get_Set_same _ _ _ _, Cache.Get_Set_same _ _ _ _⟩

/-- Witness of C9: adding `objectA2` twice to a store that holds `"a"` as deleted. -/
theorem onAdd_idempotent_witness :
    (onAdd (.unstructured objectA2) tombstoneStore).dgCache.Get "a"
      = some (.gathered ⟨.unstructured objectA2, Time.zero⟩) ∧
    (onAdd (.unstructured objectA2)
        (onAdd (.unstructured objectA2) tombstoneStore).dgCache).dgCache.Get "a"
      = some (.gathered ⟨.unstructured objectA2, Time.zero⟩) :=
  (onAdd_idempotent tombstoneStore (.unstructured objectA2)).2.2 objectA2 metaA2 "a" rfl rfl rfl

/-- C10: `onUpdate` takes the key from `old` only and the snapshot from `new` only. For
every store and every pair `(old, new)` where the metadata of `old` is a mapping with
string uid `U`, whatever `new` is: when the store holds under `U` nothing or a record,
after `onUpdate old new` the lookup of `U` finds a record whose resource is `new`; and
every item under a key other than `U` (the uid of `new` included, when it differs from
`U`) is the item the store held before. -/
theorem onUpdate_key_from_old_snapshot_from_new (c : Cache)
    (object data : List (String × Value)) (U : String) (new : Obj)
    (hm : mapIndex object "metadata" = some (.map data))
    (hu : mapIndex data "uid" = some (.str U)) :
    ((c.Get U = none ∨ ∃ g, c.Get U = some (.gathered g)) →
      ∃ g, (onUpdate (.unstructured object) new c).dgCache.Get U = some (.gathered g) ∧
        g.Resource = new) ∧
    ∀ key : String, key ≠ U →
      (onUpdate (.unstructured object) new c).dgCache.items key = c.items key := by
  constructor
  · intro hrec
    rw [onUpdate_of_uid c object data U new hm hu hrec]
    exact ⟨⟨new, Time.zero⟩, Cache.Get_Set_same _ _ _ _, rfl⟩
  · intro key hkey
    simp only [onUpdate, hm, hu]
    split
    · exact Cache.items_Set_of_ne c U key _ _ hkey
    · rfl

/-- Witness of C10: an update whose `old` has uid `"a"` and whose `new` has uid `"b"`
writes the record of `new` under `"a"` and leaves `"b"` as it was. -/
theorem onUpdate_key_from_old_snapshot_from_new_witness :
    (∃ g, (onUpdate (.unstructured objectA) (.unstructured objectB)
        tombstoneStore).dgCache.Get "a" = some (.gathered g) ∧
      g.Resource = .unstructured objectB) ∧
    (onUpdate (.unstructured objectA) (.unstructured objectB)
        tombstoneStore).dgCache.items "b" = tombstoneStore.items "b" ∧
    (onUpdate (.unstructured objectA) (.unstructured objectB)
        tombstoneStore).dgCache.Get "b" = none :=
  ⟨(onUpdate_key_from_old_snapshot_from_new tombstoneStore objectA metaA "a"
      (.unstructured objectB) rfl rfl).1 (Or.inr ⟨⟨.unstructured objectA, T0⟩, rfl⟩),
    (onUpdate_key_from_old_snapshot_from_new tombstoneStore objectA metaA "a"
      (.unstructured objectB) rfl rfl).2 "b" (by decide),
    rfl⟩

/-! ## What a handler call does to the store -/

/-- The store after `onAdd` is the store before, or the call has returned after one
`Set` under the uid of `obj` with the default expiration. -/
theorem onAdd_dgCache (obj : Obj) (c : Cache) :
    (onAdd obj c).dgCache = c ∨
    ∃ (object data : List (String × Value)) (U : String),
      obj = .unstructured object ∧
      mapIndex object "metadata" = some (.map data) ∧
      mapIndex data "uid" = some (.str U) ∧
      onAdd obj c =
        ⟨c.Set U (.gathered ⟨obj, Time.zero⟩) DefaultExpiration, .returned []⟩ := by
  cases obj with
  | unstructured object =>
    cases hm : mapIndex object "metadata" with
    | none => simp [onAdd, hm]
    | some metadata =>
      cases metadata with
      | map data =>
        cases hu : mapIndex data "uid" with
        | none =>
          cases hn : mapIndex data "name" with
          | none => simp [onAdd, hm, hu, hn]
          | some name => cases name <;> simp [onAdd, hm, hu, hn]
        | some uid =>
          cases uid with
          | str U =>
            exact Or.inr ⟨object, data, U, rfl, hm, hu, onAdd_of_uid c object data U hm hu⟩
          | _ => simp [onAdd, hm, hu]
      | _ => simp [onAdd, hm]
  | _ => simp [onAdd]

/-- The store after `onUpdate` is the store before, or the call has returned after one
`Set` under the uid of `old` with the default expiration. -/
theorem onUpdate_dgCache (old new : Obj) (c : Cache) :
    (onUpdate old new c).dgCache = c ∨
    ∃ (object data : List (String × Value)) (U : String),
      old = .unstructured object ∧
      mapIndex object "metadata" = some (.map data) ∧
      mapIndex data "uid" = some (.str U) ∧
      onUpdate old new c =
        ⟨c.Set U (.gathered ⟨new, Time.zero⟩) DefaultExpiration, .returned []⟩ := by
  cases old with
  | unstructured object =>
    cases hm : mapIndex object "metadata" with
    | none => simp [onUpdate, hm]
    | some metadata =>
      cases metadata with
      | map data =>
        cases hu : mapIndex data "uid" with
        | none =>
          cases hn : mapIndex data "name" with
          | none => simp [onUpdate, hm, hu, hn]
          | some name => cases name <;> simp [onUpdate, hm, hu, hn]
        | some uid =>
          cases uid with
          | str U =>
            cases hr : updateCacheGatheredResource U new c with
            | none => simp [onUpdate, hm, hu, hr]
            | some r =>
              have hfresh := updateCacheGatheredResource_eq_fresh U new c r hr
              subst hfresh
              exact Or.inr ⟨object, data, U, rfl, hm, hu, by simp [onUpdate, hm, hu, hr]⟩
          | _ => simp [onUpdate, hm, hu]
      | _ => simp [onUpdate, hm]
  | _ => simp [onUpdate]

/-- The store after `onDelete` is the store before, or the call has returned after one
`Set` under the uid of `obj` with the default expiration. -/
theorem onDelete_dgCache (clock : timeInterface) (obj : Obj) (c : Cache) :
    (onDelete clock obj c).dgCache = c ∨
    ∃ (object data : List (String × Value)) (U : String),
      obj = .unstructured object ∧
      mapIndex object "metadata" = some (.map data) ∧
      mapIndex data "uid" = some (.str U) ∧
      onDelete clock obj c =
        ⟨c.Set U (.gathered ⟨obj, clock.now⟩) DefaultExpiration, .returned []⟩ := by
  cases obj with
  | unstructured object =>
    cases hm : mapIndex object "metadata" with
    | none => simp [onDelete, hm]
    | some metadata =>
      cases metadata with
      | map data =>
        cases hu : mapIndex data "uid" with
        | none =>
          cases hn : mapIndex data "name" with
          | none => simp [onDelete, hm, hu, hn]
          | some name => cases name <;> simp [onDelete, hm, hu, hn]
        | some uid =>
          cases uid with
          | str U =>
            cases hr : updateCacheGatheredResource U (.unstructured object) c with
            | none => simp [onDelete, hm, hu, hr]
            | some r =>
              have hfresh :=
                updateCacheGatheredResource_eq_fresh U (.unstructured object) c r hr
              subst hfresh
              exact Or.inr ⟨object, data, U, rfl, hm, hu, by simp [onDelete, hm, hu, hr]⟩
          | _ => simp [onDelete, hm, hu]
      | _ => simp [onDelete, hm]
  | _ => simp [onDelete]

/-- Every handler call leaves the store as it was or sets one record with the default
expiration. -/
theorem handle_dgCache (e : Event) (c : Cache) :
    (handle e c).dgCache = c ∨
    ∃ (U : String) (g : GatheredResource),
      (handle e c).dgCache = c.Set U (.gathered g) DefaultExpiration := by
  cases e with
  | add obj =>
    rcases onAdd_dgCache obj c with h | ⟨_, _, U, _, _, _, h⟩
    · exact Or.inl h
    · exact Or.inr ⟨U, _, congrArg Result.dgCache h⟩
  | update old new =>
    rcases onUpdate_dgCache old new c with h | ⟨_, _, U, _, _, _, h⟩
    · exact Or.inl h
    · exact Or.inr ⟨U, _, congrArg Result.dgCache h⟩
  | delete clock obj =>
    rcases onDelete_dgCache clock obj c with h | ⟨_, _, U, _, _, _, h⟩
    · exact Or.inl h
    · exact Or.inr ⟨U, _, congrArg Result.dgCache h⟩

theorem Cache.Get_Set_isSome (c : Cache) (k key : String) (x : CacheValue) (d : Duration)
    (h : (c.Get key).isSome = true) : ((c.Set k x d).Get key).isSome = true := by
  by_cases hk : key = k
  · subst hk
    simp [Cache.Get_Set_same]
  · rw [Cache.Get_Set_of_ne c k key x d hk]
    exact h

theorem runEvents_Get_isSome (events : List Event) (c : Cache) (k : String)
    (h : (c.Get k).isSome = true) : ((runEvents events c).Get k).isSome = true := by
  induction events generalizing c with
  | nil => exact h
  | cons e rest ih =>
    simp only [runEvents]
    apply ih
    rcases handle_dgCache e c with hc | ⟨U, g, hc⟩
    · rw [hc]
      exact h
    · rw [hc]
      exact Cache.Get_Set_isSome c U k _ _ h

theorem writesUIDWithDefaultTTL_of_Set (obj : Obj) (c : Cache)
    (object data : List (String × Value)) (U : String) (g : GatheredResource)
    (hobj : obj = .unstructured object)
    (hm : mapIndex object "metadata" = some (.map data))
    (hu : mapIndex data "uid" = some (.str U)) :
    WritesUIDWithDefaultTTL obj c (c.Set U (.gathered g) DefaultExpiration) := by
  refine Or.inr ⟨object, data, U, g, hobj, hm, hu, rfl, ?_, ?_⟩
  · simp [Cache.Set]
  · intro key hkey
    exact Cache.items_Set_of_ne c U key _ _ hkey

/-! ## Residency, writes and frame -/

/-- C11: the handlers never remove a record. For every store and every key `k` that is
found before the call, `k` is found after `onAdd`, after `onUpdate` and after `onDelete`,
whatever the arguments and however the call ends; so a key stays resident after
`onDelete`, and after every finite sequence of events. -/
theorem handlers_never_remove (c : Cache) (k : String)
    (hfound : (c.Get k).isSome = true) :
    (∀ obj : Obj, ((onAdd obj c).dgCache.Get k).isSome = true) ∧
    (∀ old new : Obj, ((onUpdate old new c).dgCache.Get k).isSome = true) ∧
    (∀ (clock : timeInterface) (obj : Obj),
      ((onDelete clock obj c).dgCache.Get k).isSome = true) ∧
    (∀ events : List Event, ((runEvents events c).Get k).isSome = true) := by
  refine ⟨?_, ?_, ?_, ?_⟩
  · intro obj
    exact runEvents_Get_isSome [.add obj] c k hfound
  · intro old new
    exact runEvents_Get_isSome [.update old new] c k hfound
  · intro clock obj
    exact runEvents_Get_isSome [.delete clock obj] c k hfound
  · intro events
    exact runEvents_Get_isSome events c k hfound

/-- Witness of C11: the key `"a"` of the store that holds it as deleted is found after
a further `onDelete` of the same resource. -/
theorem handlers_never_remove_witness :
    ((onDelete ⟨T1⟩ (.unstructured objectA) tombstoneStore).dgCache.Get "a").isSome = true :=
  (handlers_never_remove tombstoneStore "a" rfl).2.2.1 ⟨T1⟩ (.unstructured objectA)

/-- C12: every write of a handler is keyed by the uid string of the identifying
resource and uses the default expiration of the store. For every store and all
arguments, the store after `onAdd`, `onUpdate` or `onDelete` is the store before, or it
is the store before after one `Set(U, record, DefaultExpiration)` where `U` is the
string uid in the metadata of the resource: the item under `U` has the default
expiration of the store and no other key (the display name included) is written. -/
theorem writes_use_uid_key_and_default_ttl (clock : timeInterface) (c : Cache)
    (obj new : Obj) :
    WritesUIDWithDefaultTTL obj c (onAdd obj c).dgCache ∧
    WritesUIDWithDefaultTTL obj c (onUpdate obj new c).dgCache ∧
    WritesUIDWithDefaultTTL obj c (onDelete clock obj c).dgCache := by
  refine ⟨?_, ?_, ?_⟩
  · rcases onAdd_dgCache obj c with h | ⟨object, data, U, hobj, hm, hu, h⟩
    · exact Or.inl h
    · rw [h]
      exact writesUIDWithDefaultTTL_of_Set obj c object data U _ hobj hm hu
  · rcases onUpdate_dgCache obj new c with h | ⟨object, data, U, hobj, hm, hu, h⟩
    · exact Or.inl h
    · rw [h]
      exact writesUIDWithDefaultTTL_of_Set obj c object data U _ hobj hm hu
  · rcases onDelete_dgCache clock obj c with h | ⟨object, data, U, hobj, hm, hu, h⟩
    · exact Or.inl h
    · rw [h]
      exact writesUIDWithDefaultTTL_of_Set obj c object data U _ hobj hm hu

/-- C13 (frame): for every store and every handler call whose identifying resource has a
metadata mapping with string uid `U`, the item and the lookup of every key other than
`U` are after the call what they were before it. -/
theorem handlers_frame (clock : timeInterface) (c : Cache)
    (object data : List (String × Value)) (U : String) (new : Obj) (k : String)
    (hm : mapIndex object "metadata" = some (.map data))
    (hu : mapIndex data "uid" = some (.str U))
    (hk : k ≠ U) :
    ((onAdd (.unstructured object) c).dgCache.items k = c.items k ∧
      (onAdd (.unstructured object) c).dgCache.Get k = c.Get k) ∧
    ((onUpdate (.unstructured object) new c).dgCache.items k = c.items k ∧
      (onUpdate (.unstructured object) new c).dgCache.Get k = c.Get k) ∧
    ((onDelete clock (.unstructured object) c).dgCache.items k = c.items k ∧
      (onDelete clock (.unstructured object) c).dgCache.Get k = c.Get k) := by
  have hadd : (onAdd (.unstructured object) c).dgCache.items k = c.items k := by
    rw [onAdd_of_uid c object data U hm hu]
    exact Cache.items_Set_of_ne c U k _ _ hk
  have hupd : (onUpdate (.unstructured object) new c).dgCache.items k = c.items k := by
    simp only [onUpdate, hm, hu]
    split
    · exact Cache.items_Set_of_ne c U k _ _ hk
    · rfl
  have hdel : (onDelete clock (.unstructured object) c).dgCache.items k = c.items k := by
    simp only [onDelete, hm, hu]
    split
    · exact Cache.items_Set_of_ne c U k _ _ hk
    · rfl
  refine ⟨⟨hadd, ?_⟩, ⟨hupd, ?_⟩, ⟨hdel, ?_⟩⟩
  · simp only [Cache.Get, hadd]
  · simp only [Cache.Get, hupd]
  · simp only [Cache.Get, hdel]

/-- Witness of C13: events for uid `"b"` leave the tombstone under `"a"` in place. -/
theorem handlers_frame_witness :
    ((onAdd (.unstructured objectB) tombstoneStore).dgCache.items "a"
        = tombstoneStore.items "a" ∧
      (onAdd (.unstructured objectB) tombstoneStore).dgCache.Get "a"
        = tombstoneStore.Get "a") ∧
    ((onUpdate (.unstructured objectB) (.unstructured objectA2) tombstoneStore).dgCache.items "a"
        = tombstoneStore.items "a" ∧
      (onUpdate (.unstructured objectB) (.unstructured objectA2) tombstoneStore).dgCache.Get "a"
        = tombstoneStore.Get "a") ∧
    ((onDelete ⟨T1⟩ (.unstructured objectB) tombstoneStore).dgCache.items "a"
        = tombstoneStore.items "a" ∧
      (onDelete ⟨T1⟩ (.unstructured objectB) tombstoneStore).dgCache.Get "a"
        = tombstoneStore.Get "a") :=
  handlers_frame ⟨T1⟩ tombstoneStore objectB [("uid", .str "b"), ("name", .str "y")] "b"
    (.unstructured objectA2) "a" rfl rfl (by decide)

/-- Witness of C12: the delete of the resource `"a"` writes under `"a"` with the default
expiration 300 of the store, and writes nothing under the display name `"x"`. -/
theorem writes_use_uid_key_and_default_ttl_witness :
    WritesUIDWithDefaultTTL (.unstructured objectA) tombstoneStore
      (onDelete ⟨T1⟩ (.unstructured objectA) tombstoneStore).dgCache ∧
    (onDelete ⟨T1⟩ (.unstructured objectA) tombstoneStore).dgCache.items "a"
      = some ⟨.gathered ⟨.unstructured objectA, T1⟩, 300⟩ ∧
    (onDelete ⟨T1⟩ (.unstructured objectA) tombstoneStore).dgCache.items "x" = none :=
  ⟨(writes_use_uid_key_and_default_ttl ⟨T1⟩ tombstoneStore (.unstructured objectA)
      (.unstructured objectA2)).2.2, rfl, rfl⟩

/-! ## Independence of the prior store and well-typed stores -/

theorem Cache.WellTyped_empty (d : Duration) : (Cache.empty d).WellTyped := by
  intro k v h
  simp [Cache.Get, Cache.empty] at h

theorem Cache.WellTyped_Set (c : Cache) (U : String) (g : GatheredResource) (d : Duration)
    (h : c.WellTyped) : (c.Set U (.gathered g) d).WellTyped := by
  intro k v hv
  by_cases hk : k = U
  · subst hk
    rw [Cache.Get_Set_same] at hv
    exact ⟨g, (Option.some.inj hv).symm⟩
  · rw [Cache.Get_Set_of_ne c U k _ d hk] at hv
    exact h k v hv

theorem runEvents_wellTyped (events : List Event) (c : Cache) (h : c.WellTyped) :
    (runEvents events c).WellTyped := by
  induction events generalizing c with
  | nil => exact h
  | cons e rest ih =>
    simp only [runEvents]
    apply ih
    rcases handle_dgCache e c with hc | ⟨U, g, hc⟩
    · rw [hc]
      exact h
    · rw [hc]
      exact Cache.WellTyped_Set c U g _ h

theorem Cache.WellTyped.record_or_absent (c : Cache) (h : c.WellTyped) (U : String) :
    c.Get U = none ∨ ∃ g, c.Get U = some (.gathered g) := by
  cases hv : c.Get U with
  | none => exact Or.inl rfl
  | some v =>
    obtain ⟨g, hg⟩ := h U v hv
    exact Or.inr ⟨g, by rw [hg]⟩

/-- C14: the record `onUpdate` writes does not depend on the prior store contents. For
every two stores `s1` and `s2` that hold under `U` nothing or a record, and every pair
`(old, new)` where the metadata of `old` is a mapping with string uid `U`: the lookups of
`U` after `onUpdate old new` on `s1` and on `s2` are equal, both find the record with
resource `new` and the zero deletion timestamp, which is the record `onAdd new` writes
under `U` when `new` has the uid `U`; and `updateCacheGatheredResource` returns the record
with the zero deletion timestamp for every such store and key, and never a record with
another deletion timestamp. -/
theorem onUpdate_record_independent_of_store (s1 s2 : Cache)
    (object data : List (String × Value)) (U : String) (new : Obj)
    (hm : mapIndex object "metadata" = some (.map data))
    (hu : mapIndex data "uid" = some (.str U))
    (h1 : s1.Get U = none ∨ ∃ g, s1.Get U = some (.gathered g))
    (h2 : s2.Get U = none ∨ ∃ g, s2.Get U = some (.gathered g)) :
    (onUpdate (.unstructured object) new s1).dgCache.Get U
      = (onUpdate (.unstructured object) new s2).dgCache.Get U ∧
    (onUpdate (.unstructured object) new s1).dgCache.Get U
      = some (.gathered ⟨new, Time.zero⟩) ∧
    (∀ (object2 data2 : List (String × Value)) (c : Cache),
      new = .unstructured object2 →
      mapIndex object2 "metadata" = some (.map data2) →
      mapIndex data2 "uid" = some (.str U) →
      (onAdd new c).dgCache.Get U
        = (onUpdate (.unstructured object) new s1).dgCache.Get U) ∧
    (∀ (c : Cache) (key : String) (resource : Obj),
      (c.Get key = none ∨ ∃ g, c.Get key = some (.gathered g)) →
      updateCacheGatheredResource key resource c = some ⟨resource, Time.zero⟩) ∧
    (∀ (c : Cache) (key : String) (resource : Obj) (r : GatheredResource),
      updateCacheGatheredResource key resource c = some r → r.DeletedAt = Time.zero) := by
  have e1 : (onUpdate (.unstructured object) new s1).dgCache.Get U
      = some (.gathered ⟨new, Time.zero⟩) := by
    rw [onUpdate_of_uid s1 object data U new hm hu h1]
    exact Cache.Get_Set_same _ _ _ _
  have e2 : (onUpdate (.unstructured object) new s2).dgCache.Get U
      = some (.gathered ⟨new, Time.zero⟩) := by
    rw [onUpdate_of_uid s2 object data U new hm hu h2]
    exact Cache.Get_Set_same _ _ _ _
  refine ⟨e1.trans e2.symm, e1, ?_, ?_, ?_⟩
  · intro object2 data2 c hnew hm2 hu2
    subst hnew
    rw [e1, onAdd_of_uid c object2 data2 U hm2 hu2]
    exact Cache.Get_Set_same _ _ _ _
  · intro c key resource hrec
    exact updateCacheGatheredResource_of_record key resource c hrec
  · intro c key resource r hr
    rw [updateCacheGatheredResource_eq_fresh key resource c r hr]

/-- Witness of C14: the update of `"a"` on the store that holds `"a"` as deleted at `T0`
and on the empty store. -/
theorem onUpdate_record_independent_of_store_witness :
    (onUpdate (.unstructured objectA) (.unstructured objectA2) tombstoneStore).dgCache.Get "a"
      = (onUpdate (.unstructured objectA) (.unstructured objectA2)
          (Cache.empty 300)).dgCache.Get "a" ∧
    (onUpdate (.unstructured objectA) (.unstructured objectA2) tombstoneStore).dgCache.Get "a"
      = some (.gathered ⟨.unstructured objectA2, Time.zero⟩) :=
  ⟨(onUpdate_record_independent_of_store tombstoneStore (Cache.empty 300) objectA metaA "a"
      (.unstructured objectA2) rfl rfl (Or.inr ⟨⟨.unstructured objectA, T0⟩, rfl⟩)
      (Or.inl rfl)).1,
    (onUpdate_record_independent_of_store tombstoneStore (Cache.empty 300) objectA metaA "a"
      (.unstructured objectA2) rfl rfl (Or.inr ⟨⟨.unstructured objectA, T0⟩, rfl⟩)
      (Or.inl rfl)).2.1⟩

/-- C15: well-typed stores and panic freedom on well-formed input. In every store
reached from an empty store by a finite sequence of `onAdd`, `onUpdate` and `onDelete`
calls, every stored value is a record, so `updateCacheGatheredResource` returns for every
key (its type assertion does not fail); hence on such a store every handler call whose
identifying resource has a metadata mapping with a string uid returns without a panic. -/
theorem reachable_store_well_typed (d : Duration) (events : List Event) :
    (runEvents events (Cache.empty d)).WellTyped ∧
    (∀ (key : String) (resource : Obj),
      updateCacheGatheredResource key resource (runEvents events (Cache.empty d))
        = some ⟨resource, Time.zero⟩) ∧
    (∀ (clock : timeInterface) (object data : List (String × Value)) (U : String)
      (new : Obj),
      mapIndex object "metadata" = some (.map data) →
      mapIndex data "uid" = some (.str U) →
      (onAdd (.unstructured object) (runEvents events (Cache.empty d))).outcome
        = .returned [] ∧
      (onUpdate (.unstructured object) new (runEvents events (Cache.empty d))).outcome
        = .returned [] ∧
      (onDelete clock (.unstructured object) (runEvents events (Cache.empty d))).outcome
        = .returned []) := by
  have hwt : (runEvents events (Cache.empty d)).WellTyped :=
    runEvents_wellTyped events (Cache.empty d) (Cache.WellTyped_empty d)
  refine ⟨hwt, ?_, ?_⟩
  · intro key resource
    exact updateCacheGatheredResource_of_record key resource _
      (Cache.WellTyped.record_or_absent _ hwt key)
  · intro clock object data U new hm hu
    have hrec := Cache.WellTyped.record_or_absent _ hwt U
    rw [onAdd_of_uid _ object data U hm hu, onUpdate_of_uid _ object data U new hm hu hrec,
      onDelete_of_uid clock _ object data U hm hu hrec]
    exact ⟨rfl, rfl, rfl⟩

/-- Witness of C15: after the events of the spec scenario, each handler returns on the
resource `"a"`. -/
theorem reachable_store_well_typed_witness :
    (onAdd (.unstructured objectA) (runEvents scenarioEvents (Cache.empty 300))).outcome
      = .returned [] ∧
    (onUpdate (.unstructured objectA) (.unstructured objectB)
      (runEvents scenarioEvents (Cache.empty 300))).outcome = .returned [] ∧
    (onDelete ⟨T1⟩ (.unstructured objectA)
      (runEvents scenarioEvents (Cache.empty 300))).outcome = .returned [] :=
  (reachable_store_well_typed 300 scenarioEvents).2.2 ⟨T1⟩ objectA metaA "a"
    (.unstructured objectB) rfl rfl

end K8s
